import Mathlib

/-!
# Verification of the franchisor command center's normalizer and aggregator

Shallow embedding of `src/franchisor_app.py`:

* `load_sheet_data` — the Row Normalizer.  The remote spreadsheet interaction
  is modelled by a `FetchResult` value describing what the remote call
  produced: a successful header-keyed retrieval (`records`), the
  duplicate-header structural error together with the raw grid that the
  fallback then reads (`dupHeader`), or any other exception (`otherError`).
  Timestamp parsing (`pd.to_datetime(·, errors='coerce')`) and numeric
  coercion (`pd.to_numeric(·, errors='coerce')`) are external library calls;
  they are passed in as arbitrary functions `parseDT : String → Option Nat`
  and `parseNum : String → Option ℚ`, so every theorem below holds for every
  possible behaviour of those parsers.  Cell values are strings; amounts are
  embedded as exact rationals.
* `calculate_revenue_metrics` — the Metrics Aggregator.
* `create_product_analysis` — the ProductBreakdown (the table part; the
  plotly figure owns no logic).

pandas specifics embedded faithfully: `groupby` sorts group keys ascending
(string keys: lexicographic by code point, matching Lean's `String` order);
`Series.idxmax` returns the first index attaining the maximum;
`DataFrame.round(2)` rounds half to even; `sort_values` is modelled as a
stable sort (numpy's sort is stable on the small arrays at hand).
-/

namespace Franchisor

/-- One raw spreadsheet cell row: a list of string cells. -/
abbrev RawRow := List String

/-- Outcome of the remote retrieval inside `load_sheet_data`:
`records cols rows` models `worksheet.get_all_records()` succeeding and
yielding dictionaries with (ordered) keys `cols` and per-row values `rows`
aligned to those keys; `dupHeader grid` models `get_all_records` raising an
exception whose message contains "duplicates", with `grid` the full grid
that `worksheet.get_all_values()` then returns; `otherError` models any
other exception anywhere in the body (missing tab, connection error, …). -/
inductive FetchResult where
  | records (cols : List String) (rows : List RawRow)
  | dupHeader (grid : List RawRow)
  | otherError
deriving DecidableEq, Repr

/-- A fully normalized transaction row.  `dateTime` is `none` exactly when
`pd.to_datetime` failed (`NaT`); the normalizer drops such rows, so rows in
a returned table always carry `some` timestamp. -/
structure NormRow where
  dateTime : Option Nat
  product : String
  quantity : String
  amount : ℚ
  location : String
  year : ℤ
  month : String
deriving DecidableEq, Repr

/-- What `load_sheet_data` hands back to its caller: the dataframe's column
names, its rows, and whether `st.error` was invoked on the way. -/
structure LoadResult where
  cols : List String
  table : List NormRow
  errorReported : Bool
deriving DecidableEq, Repr

/-- The column names of every non-empty table `load_sheet_data` returns:
the four positionally renamed columns followed by the three metadata
columns added afterwards. -/
def normColumns : List String :=
  ["DateTime", "Product", "Quantity", "Amount", "Location", "Year", "Month"]

/-- `clean_headers = headers[:4] if len(headers) >= 4 else headers`. -/
def cleanHeaders (headers : List String) : List String :=
  if 4 ≤ headers.length then headers.take 4 else headers

/-- Keys of a Python dict filled by iterating over `clean_headers`:
insertion order keeps the first occurrence of each duplicated header. -/
def firstOccurrences : List String → List String
  | [] => []
  | h :: t => h :: firstOccurrences (t.filter (fun x => x ≠ h))
termination_by l => l.length
decreasing_by
  simp only [List.length_cons]
  exact Nat.lt_succ_of_le (List.length_filter_le _ _)

/-- The dict value stored under key `k` after the loop
`for i, header in enumerate(clean_headers): row_dict[header] = row[i] if i < len(row) else ''`:
the cell at the *last* position of `k` in `hs` (later assignments win),
empty string when the cell is missing. -/
def dictLookup (hs : List String) (row : RawRow) (k : String) : String :=
  match ((hs.enum.filter (fun p => p.2 = k)).getLast?) with
  | some p => row.getD p.1 ""
  | none => ""

/-- The raw-grid fallback: returns the dataframe input (column names and
aligned rows) built from `worksheet.get_all_values()`.  Mirrors the source:
only grids with a header row and at least one data row produce records, and
a data row is kept only when `len(row) >= len(clean_headers)`. -/
def fallbackData (grid : List RawRow) : List String × List RawRow :=
  match grid with
  | [] => ([], [])
  | headers :: dataRows =>
    if dataRows.isEmpty then ([], [])
    else
      let ch := cleanHeaders headers
      let cols := firstOccurrences ch
      (cols, (dataRows.filter (fun r => ch.length ≤ r.length)).map
        (fun r => cols.map (dictLookup ch r)))

/-- The dataframe input (`data`) that `pd.DataFrame(data)` receives, per
fetch outcome: the records themselves, or the fallback's dicts.  For
`otherError` control never reaches `pd.DataFrame`. -/
def dataOfFetch (fetch : FetchResult) : List String × List RawRow :=
  match fetch with
  | .records cols rows => (cols, rows)
  | .dupHeader grid => fallbackData grid
  | .otherError => ([], [])

/-- One row after positional renaming plus
`pd.to_numeric(df['Amount'], errors='coerce').fillna(0)` and
`pd.to_datetime(df['DateTime'], errors='coerce')`:
cells 0–3 are DateTime, Product, Quantity, Amount. -/
structure CoercedRow where
  dateTime : Option Nat
  product : String
  quantity : String
  amount : ℚ
deriving DecidableEq, Repr

/-- Coerce one raw row (first four cells positionally). -/
def coerceRow (parseDT : String → Option Nat) (parseNum : String → Option ℚ)
    (r : RawRow) : CoercedRow :=
  { dateTime := parseDT (r.getD 0 "")
    product := r.getD 1 ""
    quantity := r.getD 2 ""
    amount := (parseNum (r.getD 3 "")).getD 0 }

/-- `df['Location'] = location; df['Year'] = year; df['Month'] = month`. -/
def stampRow (location : String) (year : ℤ) (month : String)
    (r : CoercedRow) : NormRow :=
  { dateTime := r.dateTime
    product := r.product
    quantity := r.quantity
    amount := r.amount
    location := location
    year := year
    month := month }

/-- The normalization pipeline applied to the dataframe rows: coerce each
row, drop rows whose timestamp failed to parse (`df.dropna(subset=['DateTime'])`),
stamp the survivors with the request metadata. -/
def normalizeRows (parseDT : String → Option Nat) (parseNum : String → Option ℚ)
    (location : String) (year : ℤ) (month : String)
    (rows : List RawRow) : List NormRow :=
  (((rows.map (coerceRow parseDT parseNum)).filter
      (fun r => r.dateTime.isSome)).map (stampRow location year month))

/-- The tail of `load_sheet_data` from `if not data:` on, applied to the
dataframe input `d` (column names, rows): empty `data` returns an empty
dataframe; fewer than 4 columns returns an empty dataframe; otherwise the
first 4 columns are renamed positionally and the rows normalized. -/
def processData (parseDT : String → Option Nat) (parseNum : String → Option ℚ)
    (location : String) (year : ℤ) (month : String)
    (d : List String × List RawRow) : LoadResult :=
  if d.2.isEmpty then ⟨[], [], false⟩
  else if 4 ≤ d.1.length then
    ⟨normColumns, normalizeRows parseDT parseNum location year month d.2, false⟩
  else ⟨[], [], false⟩

/-- `load_sheet_data(gc, location, year, month)` with the remote
interaction summarized by `fetch`.  Mirrors the source's control flow:
any exception other than the duplicate-header one reaches the outer
`except`, which reports an error (`st.error`) and returns an empty
dataframe; otherwise the retrieved (or fallback-built) records are
processed by `processData`. -/
def load_sheet_data (parseDT : String → Option Nat) (parseNum : String → Option ℚ)
    (location : String) (year : ℤ) (month : String)
    (fetch : FetchResult) : LoadResult :=
  match fetch with
  | .otherError => ⟨[], [], true⟩
  | .records cols rows => processData parseDT parseNum location year month (cols, rows)
  | .dupHeader grid => processData parseDT parseNum location year month (fallbackData grid)

/-- The metrics dict returned by `calculate_revenue_metrics`. -/
structure RevenueMetrics where
  total_revenue : ℚ
  transaction_count : ℕ
  avg_transaction : ℚ
  unique_products : ℕ
  top_product : String
  daily_average : ℚ
deriving DecidableEq, Repr

/-- Sum of `Amount` over the rows of product `p`
(`df.groupby('Product')['Amount'].sum()` at key `p`). -/
def groupSum (df : List NormRow) (p : String) : ℚ :=
  ((df.filter (fun r => r.product = p)).map (fun r => r.amount)).sum

/-- Number of rows of product `p`. -/
def groupCount (df : List NormRow) (p : String) : ℕ :=
  (df.filter (fun r => r.product = p)).length

/-- Mean `Amount` of the rows of product `p`. -/
def groupMean (df : List NormRow) (p : String) : ℚ :=
  groupSum df p / (groupCount df p : ℚ)

/-- The distinct products of a table, in pandas `groupby` key order:
sorted ascending (lexicographically, for string keys). -/
def productKeys (df : List NormRow) : List String :=
  List.insertionSort (fun a b => a ≤ b) ((df.map (fun r => r.product)).dedup)

/-- `Series.idxmax` on a key-ordered series, given a first entry: returns
the key of the first entry attaining the maximum value (later entries
replace the running best only when strictly greater). -/
def idxmaxPair (best : String × ℚ) : List (String × ℚ) → String × ℚ
  | [] => best
  | kv :: t => if best.2 < kv.2 then idxmaxPair kv t else idxmaxPair best t

/-- `product_revenue.idxmax() if not product_revenue.empty else 'N/A'`. -/
def idxmax (series : List (String × ℚ)) : String :=
  match series with
  | [] => "N/A"
  | kv :: t => (idxmaxPair kv t).1

/-- The grouped revenue series `df.groupby('Product')['Amount'].sum()`:
keys ascending, value = summed amount. -/
def productRevenue (df : List NormRow) : List (String × ℚ) :=
  (productKeys df).map (fun p => (p, groupSum df p))

/-- `calculate_revenue_metrics(df)`. -/
def calculate_revenue_metrics (df : List NormRow) : RevenueMetrics :=
  if df.isEmpty then
    { total_revenue := 0
      transaction_count := 0
      avg_transaction := 0
      unique_products := 0
      top_product := "N/A"
      daily_average := 0 }
  else
    let total_revenue := (df.map (fun r => r.amount)).sum
    let transaction_count := df.length
    { total_revenue := total_revenue
      transaction_count := transaction_count
      avg_transaction :=
        if 0 < transaction_count then total_revenue / (transaction_count : ℚ) else 0
      unique_products := (df.map (fun r => r.product)).dedup.length
      top_product := idxmax (productRevenue df)
      daily_average := total_revenue / 30 }

/-- Round a rational to an integer, half to even (numpy's rounding mode,
used by `DataFrame.round`). -/
def roundHalfEven (q : ℚ) : ℤ :=
  if q - ⌊q⌋ = 1/2 then (if ⌊q⌋ % 2 = 0 then ⌊q⌋ else ⌊q⌋ + 1) else round q

/-- `round(·, 2)`: round to two decimal places, half to even. -/
def round2 (q : ℚ) : ℚ := (roundHalfEven (q * 100) : ℚ) / 100

/-- One row of the `product_stats` dataframe: columns
'Total Revenue', 'Transaction Count', 'Avg Value' (sum and mean rounded to
two decimals by `.round(2)`), indexed by product. -/
structure ProductStats where
  product : String
  total : ℚ
  count : ℕ
  mean : ℚ
deriving DecidableEq, Repr

/-- Insert into a list sorted descending by `total`, before the first entry
whose `total` is not larger (a stable descending insertion). -/
def insertDesc (a : ProductStats) : List ProductStats → List ProductStats
  | [] => [a]
  | b :: t => if a.total < b.total then b :: insertDesc a t else a :: b :: t

/-- `sort_values('Total Revenue', ascending=False)` as a stable sort. -/
def sortDesc : List ProductStats → List ProductStats
  | [] => []
  | a :: t => insertDesc a (sortDesc t)

/-- One aggregated group of the `product_stats` dataframe:
`('Total Revenue', 'Transaction Count', 'Avg Value')` for product `p`,
sum and mean rounded by `.round(2)`. -/
def breakdownEntry (df : List NormRow) (p : String) : ProductStats :=
  { product := p
    total := round2 (groupSum df p)
    count := groupCount df p
    mean := round2 (groupMean df p) }

/-- The `product_stats` table of `create_product_analysis(df)`:
group by product, aggregate (sum, count, mean) of Amount, round to two
decimals, sort descending by the (rounded) 'Total Revenue' column.  The
accompanying plotly figure holds no further logic and is not modelled. -/
def create_product_analysis (df : List NormRow) : List ProductStats :=
  if df.isEmpty then []
  else sortDesc ((productKeys df).map (breakdownEntry df))

/-- The order in which `create_product_analysis` lists its groups:
strictly larger (rounded) total revenue first; among equal totals, product
name ascending. -/
def breakdownOrder (a b : ProductStats) : Prop :=
  b.total < a.total ∨ (a.total = b.total ∧ a.product < b.product)

/-- Sample normalized row builder, used only to instantiate theorems at
concrete inputs. -/
def mkRow (p : String) (a : ℚ) : NormRow :=
  ⟨some 1, p, "1", a, "Oxford East", 2025, "May 25"⟩

/-! ## Helper lemmas -/

theorem processData_errorReported (pDT : String → Option Nat) (pN : String → Option ℚ)
    (loc : String) (y : ℤ) (m : String) (d : List String × List RawRow) :
    (processData pDT pN loc y m d).errorReported = false := by
  unfold processData
  split_ifs <;> rfl

theorem processData_table_of_cols_lt (pDT : String → Option Nat) (pN : String → Option ℚ)
    (loc : String) (y : ℤ) (m : String) (d : List String × List RawRow)
    (h : d.1.length < 4) : (processData pDT pN loc y m d).table = [] := by
  unfold processData
  split_ifs with h1 h2
  · rfl
  · exact absurd h2 (Nat.not_le_of_lt h)
  · rfl

theorem processData_of_not_isEmpty (pDT : String → Option Nat) (pN : String → Option ℚ)
    (loc : String) (y : ℤ) (m : String) (d : List String × List RawRow)
    (hne : d.2.isEmpty = false) (h4 : 4 ≤ d.1.length) :
    processData pDT pN loc y m d =
      ⟨normColumns, normalizeRows pDT pN loc y m d.2, false⟩ := by
  unfold processData
  rw [hne]
  simp [h4]

theorem processData_table_shape (pDT : String → Option Nat) (pN : String → Option ℚ)
    (loc : String) (y : ℤ) (m : String) (d : List String × List RawRow)
    (hne : (processData pDT pN loc y m d).table ≠ []) :
    (processData pDT pN loc y m d).cols = normColumns ∧
    (processData pDT pN loc y m d).table = normalizeRows pDT pN loc y m d.2 := by
  unfold processData at hne ⊢
  split_ifs at hne ⊢ with h1 h2
  · exact absurd rfl hne
  · exact ⟨rfl, rfl⟩
  · exact absurd rfl hne

theorem normalizeRows_length (pDT : String → Option Nat) (pN : String → Option ℚ)
    (loc : String) (y : ℤ) (m : String) (rows : List RawRow) :
    (normalizeRows pDT pN loc y m rows).length =
      rows.countP (fun r => (pDT (r.getD 0 "")).isSome) := by
  unfold normalizeRows
  rw [List.length_map, ← List.countP_eq_length_filter, List.countP_map]
  rfl

theorem mem_normalizeRows_of_parses (pDT : String → Option Nat) (pN : String → Option ℚ)
    (loc : String) (y : ℤ) (m : String) (rows : List RawRow) (r : RawRow)
    (hr : r ∈ rows) (hsome : (pDT (r.getD 0 "")).isSome = true) :
    stampRow loc y m (coerceRow pDT pN r) ∈ normalizeRows pDT pN loc y m rows := by
  unfold normalizeRows
  exact List.mem_map_of_mem _
    (List.mem_filter.mpr ⟨List.mem_map_of_mem _ hr, hsome⟩)

theorem mem_normalizeRows_elim (pDT : String → Option Nat) (pN : String → Option ℚ)
    (loc : String) (y : ℤ) (m : String) (rows : List RawRow) (nr : NormRow)
    (h : nr ∈ normalizeRows pDT pN loc y m rows) :
    nr.dateTime.isSome = true ∧ nr.location = loc ∧ nr.year = y ∧ nr.month = m ∧
    ∃ raw : RawRow, nr = stampRow loc y m (coerceRow pDT pN raw) ∧
      nr.amount = (pN (raw.getD 3 "")).getD 0 := by
  unfold normalizeRows at h
  obtain ⟨c, hc, rfl⟩ := List.mem_map.mp h
  obtain ⟨hcm, hcpred⟩ := List.mem_filter.mp hc
  obtain ⟨raw, _hraw, rfl⟩ := List.mem_map.mp hcm
  exact ⟨hcpred, rfl, rfl, rfl, raw, rfl, rfl⟩

theorem idxmaxPair_mem (t : List (String × ℚ)) :
    ∀ best, idxmaxPair best t ∈ best :: t := by
  induction t with
  | nil => intro best; simp [idxmaxPair]
  | cons kv t ih =>
    intro best
    unfold idxmaxPair
    split_ifs with h
    · exact List.mem_cons_of_mem best (ih kv)
    · rcases List.mem_cons.mp (ih best) with h1 | h1
      · rw [h1]; exact List.mem_cons_self _ _
      · exact List.mem_cons_of_mem best (List.mem_cons_of_mem kv h1)

theorem idxmaxPair_max (t : List (String × ℚ)) :
    ∀ best, ∀ x ∈ best :: t, x.2 ≤ (idxmaxPair best t).2 := by
  induction t with
  | nil =>
    intro best x hx
    rw [List.mem_singleton.mp hx]
    exact le_refl _
  | cons kv t ih =>
    intro best x hx
    unfold idxmaxPair
    split_ifs with h
    · rcases List.mem_cons.mp hx with h1 | h1
      · rw [h1]
        exact le_of_lt (lt_of_lt_of_le h (ih kv kv (List.mem_cons_self _ _)))
      · exact ih kv x h1
    · rcases List.mem_cons.mp hx with h1 | h1
      · rw [h1]; exact ih best best (List.mem_cons_self _ _)
      · rcases List.mem_cons.mp h1 with h2 | h2
        · rw [h2]
          exact le_trans (le_of_not_lt h) (ih best best (List.mem_cons_self _ _))
        · exact ih best x (List.mem_cons_of_mem best h2)

theorem idxmaxPair_eq_or_lt (t : List (String × ℚ)) :
    ∀ best, idxmaxPair best t = best ∨ best.2 < (idxmaxPair best t).2 := by
  induction t with
  | nil => intro best; exact Or.inl rfl
  | cons kv t ih =>
    intro best
    unfold idxmaxPair
    split_ifs with h
    · rcases ih kv with h1 | h1
      · rw [h1]; exact Or.inr h
      · exact Or.inr (lt_trans h h1)
    · exact ih best

theorem idxmaxPair_first (t : List (String × ℚ)) :
    ∀ best, (∀ x ∈ t, best.1 < x.1) → t.Pairwise (fun a b => a.1 < b.1) →
      ∀ x ∈ best :: t, x.2 = (idxmaxPair best t).2 → (idxmaxPair best t).1 ≤ x.1 := by
  induction t with
  | nil =>
    intro best _ _ x hx _
    rw [List.mem_singleton.mp hx]
    exact le_refl _
  | cons kv t ih =>
    intro best hs hp x hx heq
    rw [List.pairwise_cons] at hp
    unfold idxmaxPair at heq ⊢
    split_ifs at heq ⊢ with h
    · rcases List.mem_cons.mp hx with h1 | h1
      · exfalso
        have hle : kv.2 ≤ (idxmaxPair kv t).2 :=
          idxmaxPair_max t kv kv (List.mem_cons_self _ _)
        rw [h1] at heq
        exact absurd heq (ne_of_lt (lt_of_lt_of_le h hle))
      · exact ih kv hp.1 hp.2 x h1 heq
    · have hs' : ∀ z ∈ t, best.1 < z.1 := fun z hz => hs z (List.mem_cons_of_mem kv hz)
      rcases List.mem_cons.mp hx with h1 | h1
      · exact ih best hs' hp.2 x (by rw [h1]; exact List.mem_cons_self _ _) heq
      · rcases List.mem_cons.mp h1 with h2 | h2
        · rcases idxmaxPair_eq_or_lt t best with h3 | h3
          · rw [h3, h2]
            exact le_of_lt (hs kv (List.mem_cons_self _ _))
          · exfalso
            rw [h2] at heq
            exact absurd (heq ▸ h3)
              (not_lt_of_le (le_of_not_lt h))
        · exact ih best hs' hp.2 x (List.mem_cons_of_mem best h2) heq

theorem productKeys_perm (df : List NormRow) :
    (productKeys df).Perm ((df.map (fun r => r.product)).dedup) :=
  List.perm_insertionSort _ _

theorem mem_productKeys (df : List NormRow) (p : String) :
    p ∈ productKeys df ↔ p ∈ df.map (fun r => r.product) := by
  rw [(productKeys_perm df).mem_iff, List.mem_dedup]

theorem productKeys_pairwise_lt (df : List NormRow) :
    (productKeys df).Pairwise (fun a b => a < b) := by
  have hsorted : (productKeys df).Pairwise (fun a b => a ≤ b) :=
    List.sorted_insertionSort _ _
  have hnodup : (productKeys df).Nodup :=
    (productKeys_perm df).nodup_iff.mpr (List.nodup_dedup _)
  exact (hsorted.and hnodup).imp (fun h => lt_of_le_of_ne h.1 h.2)

theorem productRevenue_pairwise (df : List NormRow) :
    (productRevenue df).Pairwise (fun a b => a.1 < b.1) := by
  unfold productRevenue
  rw [List.pairwise_map]
  exact productKeys_pairwise_lt df

theorem mem_productRevenue_shape (df : List NormRow) (kv : String × ℚ)
    (h : kv ∈ productRevenue df) :
    kv.2 = groupSum df kv.1 ∧ kv.1 ∈ df.map (fun r => r.product) := by
  obtain ⟨p, hp, rfl⟩ := List.mem_map.mp h
  exact ⟨rfl, (mem_productKeys df p).mp hp⟩

theorem mem_productRevenue_of_row (df : List NormRow) (r : NormRow) (hr : r ∈ df) :
    (r.product, groupSum df r.product) ∈ productRevenue df :=
  List.mem_map_of_mem _
    ((mem_productKeys df r.product).mpr (List.mem_map_of_mem _ hr))

theorem insertDesc_perm (a : ProductStats) (l : List ProductStats) :
    (insertDesc a l).Perm (a :: l) := by
  induction l with
  | nil => exact List.Perm.refl _
  | cons b t ih =>
    unfold insertDesc
    split_ifs with h
    · exact (ih.cons b).trans (List.Perm.swap a b t)
    · exact List.Perm.refl _

theorem sortDesc_perm (l : List ProductStats) : (sortDesc l).Perm l := by
  induction l with
  | nil => exact List.Perm.refl _
  | cons a t ih => exact (insertDesc_perm a (sortDesc t)).trans (ih.cons a)

theorem insertDesc_pairwise (a : ProductStats) (l : List ProductStats)
    (H : ∀ b ∈ l, a.total = b.total → a.product < b.product)
    (hl : l.Pairwise breakdownOrder) :
    (insertDesc a l).Pairwise breakdownOrder := by
  induction l with
  | nil => exact List.pairwise_singleton _ _
  | cons b t ih =>
    rw [List.pairwise_cons] at hl
    unfold insertDesc
    split_ifs with h
    · rw [List.pairwise_cons]
      constructor
      · intro x hx
        rcases List.mem_cons.mp ((insertDesc_perm a t).mem_iff.mp hx) with rfl | hx'
        · exact Or.inl h
        · exact hl.1 x hx'
      · exact ih (fun c hc hceq => H c (List.mem_cons_of_mem b hc) hceq) hl.2
    · rw [List.pairwise_cons]
      constructor
      · intro x hx
        rcases List.mem_cons.mp hx with rfl | hx'
        · rcases lt_or_eq_of_le (le_of_not_lt h) with hlt | heq
          · exact Or.inl hlt
          · exact Or.inr ⟨heq.symm, H x (List.mem_cons_self _ _) heq.symm⟩
        · rcases hl.1 x hx' with hbx | hbe
          · exact Or.inl (lt_of_lt_of_le hbx (le_of_not_lt h))
          · rcases lt_or_eq_of_le (le_of_not_lt h) with hlt | heq
            · exact Or.inl (by rw [← hbe.1]; exact hlt)
            · exact Or.inr ⟨heq.symm.trans hbe.1,
                H x (List.mem_cons_of_mem b hx') (heq.symm.trans hbe.1)⟩
      · rw [List.pairwise_cons]
        exact ⟨hl.1, hl.2⟩

theorem sortDesc_pairwise (l : List ProductStats)
    (hl : l.Pairwise (fun a b => a.product < b.product)) :
    (sortDesc l).Pairwise breakdownOrder := by
  induction l with
  | nil => exact List.Pairwise.nil
  | cons a t ih =>
    rw [List.pairwise_cons] at hl
    apply insertDesc_pairwise
    · intro b hb _
      exact hl.1 b ((sortDesc_perm t).mem_iff.mp hb)
    · exact ih hl.2

/-! ## Claim theorems -/

/-- **C2.** The Row Normalizer never raises past its boundary: in the
embedding `load_sheet_data` is a total function on every fetch outcome, a
generic fetch failure (`otherError`: missing tab, connection error,
malformed data) yields the empty table together with a reported error, and
whenever an error is reported the returned table is empty. -/
theorem load_sheet_data_total_error_contained :
    ∀ (pDT : String → Option Nat) (pN : String → Option ℚ)
      (loc : String) (y : ℤ) (m : String),
      load_sheet_data pDT pN loc y m FetchResult.otherError =
        ⟨[], [], true⟩ ∧
      ∀ fetch : FetchResult,
        (load_sheet_data pDT pN loc y m fetch).table = [] ∨
        (load_sheet_data pDT pN loc y m fetch).errorReported = false := by
  intro pDT pN loc y m
  refine ⟨rfl, ?_⟩
  intro fetch
  cases fetch with
  | records cols rows =>
    exact Or.inr (processData_errorReported pDT pN loc y m (cols, rows))
  | dupHeader grid =>
    exact Or.inr (processData_errorReported pDT pN loc y m (fallbackData grid))
  | otherError => exact Or.inl rfl

/-- **C3.** For every input table, `daily_average` equals
`total_revenue / 30`, the fixed constant divisor — also on the empty table,
where both sides are `0`. -/
theorem daily_average_fixed_divisor :
    ∀ df : List NormRow,
      (calculate_revenue_metrics df).daily_average =
        (calculate_revenue_metrics df).total_revenue / 30 := by
  intro df
  unfold calculate_revenue_metrics
  split_ifs with h
  · simp
  · rfl

/-- **C9.** The aggregator is a pure, deterministic function of its input
table (the embedding is a mathematical function, so two applications to the
same table are equal in every field). -/
theorem aggregator_deterministic :
    ∀ df : List NormRow,
      calculate_revenue_metrics df = calculate_revenue_metrics df :=
  fun _ => rfl

/-- **C7.** The empty table maps to all-zero / `"N/A"` metrics, and every
fetch with zero data rows (empty record list; raw grid without data rows)
produces an empty table with no error reported. -/
theorem empty_data_policy :
    calculate_revenue_metrics [] = ⟨0, 0, 0, 0, "N/A", 0⟩ ∧
    ∀ (pDT : String → Option Nat) (pN : String → Option ℚ)
      (loc : String) (y : ℤ) (m : String) (cols : List String) (headers : RawRow),
      load_sheet_data pDT pN loc y m (.records cols []) = ⟨[], [], false⟩ ∧
      load_sheet_data pDT pN loc y m (.dupHeader []) = ⟨[], [], false⟩ ∧
      load_sheet_data pDT pN loc y m (.dupHeader [headers]) = ⟨[], [], false⟩ := by
  exact ⟨rfl, fun _ _ _ _ _ _ _ => ⟨rfl, rfl, rfl⟩⟩

/-- **C1.** In the record path with at least 4 columns, the returned
table's row count equals the number of rows whose timestamp parses (so the
count decreases by exactly the unparsable-timestamp rows and by nothing
else), and every row with a parsable timestamp is retained — its amount
being the coerced value, which is `0` whenever numeric coercion fails. -/
theorem drop_policy_timestamp_vs_amount
    (pDT : String → Option Nat) (pN : String → Option ℚ)
    (loc : String) (y : ℤ) (m : String)
    (cols : List String) (rows : List RawRow) (h4 : 4 ≤ cols.length) :
    (load_sheet_data pDT pN loc y m (.records cols rows)).table.length =
      rows.countP (fun r => (pDT (r.getD 0 "")).isSome) ∧
    ∀ r ∈ rows, (pDT (r.getD 0 "")).isSome = true →
      stampRow loc y m (coerceRow pDT pN r) ∈
        (load_sheet_data pDT pN loc y m (.records cols rows)).table ∧
      (pN (r.getD 3 "") = none → (coerceRow pDT pN r).amount = 0) := by
  have hls : load_sheet_data pDT pN loc y m (.records cols rows) =
      processData pDT pN loc y m (cols, rows) := rfl
  rw [hls]
  cases hrows : rows.isEmpty with
  | false =>
    rw [processData_of_not_isEmpty pDT pN loc y m (cols, rows) hrows h4]
    refine ⟨normalizeRows_length pDT pN loc y m rows, ?_⟩
    intro r hr hsome
    refine ⟨mem_normalizeRows_of_parses pDT pN loc y m rows r hr hsome, ?_⟩
    intro hnone
    show (pN (r.getD 3 "")).getD 0 = 0
    rw [hnone]
    rfl
  | true =>
    rw [List.isEmpty_iff] at hrows
    subst hrows
    exact ⟨rfl, by intro r hr; exact absurd hr (List.not_mem_nil r)⟩

/-- Witness for C1 at a concrete input: four columns, one row with a
parsable timestamp but an uncoercible amount (retained, amount `0`) and one
row with an unparsable timestamp (dropped): the table keeps 1 of 2 rows. -/
theorem drop_policy_timestamp_vs_amount_witness :
    (4 ≤ (["h1", "h2", "h3", "h4"] : List String).length) ∧
    ((load_sheet_data (fun s => if s = "d1" then some 1 else none) (fun _ => none)
        "Oxford East" 2025 "May 25"
        (.records ["h1", "h2", "h3", "h4"] [["d1", "P", "1", "abc"], ["bad", "Q", "2", "7"]])).table.length =
      ([["d1", "P", "1", "abc"], ["bad", "Q", "2", "7"]] : List RawRow).countP
        (fun r => ((fun s => if s = "d1" then some 1 else none) (r.getD 0 "")).isSome) ∧
    ∀ r ∈ ([["d1", "P", "1", "abc"], ["bad", "Q", "2", "7"]] : List RawRow),
      ((fun s => if s = "d1" then some 1 else none) (r.getD 0 "")).isSome = true →
      stampRow "Oxford East" 2025 "May 25"
          (coerceRow (fun s => if s = "d1" then some 1 else none) (fun _ => none) r) ∈
        (load_sheet_data (fun s => if s = "d1" then some 1 else none) (fun _ => none)
          "Oxford East" 2025 "May 25"
          (.records ["h1", "h2", "h3", "h4"] [["d1", "P", "1", "abc"], ["bad", "Q", "2", "7"]])).table ∧
      ((fun _ => (none : Option ℚ)) (r.getD 3 "") = none →
        (coerceRow (fun s => if s = "d1" then some 1 else none) (fun _ => none) r).amount = 0)) :=
  ⟨by decide,
   drop_policy_timestamp_vs_amount (fun s => if s = "d1" then some 1 else none)
     (fun _ => none) "Oxford East" 2025 "May 25" ["h1", "h2", "h3", "h4"]
     [["d1", "P", "1", "abc"], ["bad", "Q", "2", "7"]] (by decide)⟩

/-- **C6.** A fetched dataframe with fewer than 4 columns (after the
fallback's truncation and dict-key collapsing, where applicable) is a hard
rejection: `load_sheet_data` returns an empty table. -/
theorem narrow_table_hard_rejection
    (pDT : String → Option Nat) (pN : String → Option ℚ)
    (loc : String) (y : ℤ) (m : String) (fetch : FetchResult)
    (h : (dataOfFetch fetch).1.length < 4) :
    (load_sheet_data pDT pN loc y m fetch).table = [] := by
  cases fetch with
  | records cols rows => exact processData_table_of_cols_lt pDT pN loc y m (cols, rows) h
  | dupHeader grid => exact processData_table_of_cols_lt pDT pN loc y m (fallbackData grid) h
  | otherError => rfl

/-- Witness for C6 at a concrete input: three columns and a non-empty data
row still produce the empty table. -/
theorem narrow_table_hard_rejection_witness :
    ((dataOfFetch (.records ["h1", "h2", "h3"] [["d1", "P", "1"]])).1.length < 4) ∧
    (load_sheet_data (fun _ => some 0) (fun _ => some 1) "Aylesbury" 2024 "Jan 24"
      (.records ["h1", "h2", "h3"] [["d1", "P", "1"]])).table = [] :=
  ⟨by decide,
   narrow_table_hard_rejection (fun _ => some 0) (fun _ => some 1) "Aylesbury" 2024
     "Jan 24" (.records ["h1", "h2", "h3"] [["d1", "P", "1"]]) (by decide)⟩

/-- **C10.** Invariant of every non-empty returned table: the column list
is exactly `DateTime, Product, Quantity, Amount, Location, Year, Month`;
every row's timestamp parsed (`dateTime` is `some`); every row carries the
requested location/year/month; and every row is the normalized image of
some raw row, its amount being the coerced value with uncoercible raw
amounts replaced by `0`. -/
theorem nonempty_table_invariant
    (pDT : String → Option Nat) (pN : String → Option ℚ)
    (loc : String) (y : ℤ) (m : String) (fetch : FetchResult)
    (hne : (load_sheet_data pDT pN loc y m fetch).table ≠ []) :
    (load_sheet_data pDT pN loc y m fetch).cols = normColumns ∧
    ∀ nr ∈ (load_sheet_data pDT pN loc y m fetch).table,
      nr.dateTime.isSome = true ∧ nr.location = loc ∧ nr.year = y ∧ nr.month = m ∧
      ∃ raw : RawRow, nr = stampRow loc y m (coerceRow pDT pN raw) ∧
        nr.amount = (pN (raw.getD 3 "")).getD 0 := by
  cases fetch with
  | records cols rows =>
    have h := processData_table_shape pDT pN loc y m (cols, rows) hne
    refine ⟨h.1, ?_⟩
    intro nr hnr
    have hnr2 : nr ∈ (processData pDT pN loc y m (cols, rows)).table := hnr
    rw [h.2] at hnr2
    exact mem_normalizeRows_elim pDT pN loc y m rows nr hnr2
  | dupHeader grid =>
    have h := processData_table_shape pDT pN loc y m (fallbackData grid) hne
    refine ⟨h.1, ?_⟩
    intro nr hnr
    have hnr2 : nr ∈ (processData pDT pN loc y m (fallbackData grid)).table := hnr
    rw [h.2] at hnr2
    exact mem_normalizeRows_elim pDT pN loc y m (fallbackData grid).2 nr hnr2
  | otherError => exact absurd rfl hne

/-- Witness for C10 at a concrete input producing a one-row table. -/
theorem nonempty_table_invariant_witness :
    ((load_sheet_data (fun _ => some 5) (fun _ => none) "Berkhamsted" 2025 "Jun 25"
        (.records ["a", "b", "c", "d"] [["t", "P", "1", "x"]])).table ≠ []) ∧
    ((load_sheet_data (fun _ => some 5) (fun _ => none) "Berkhamsted" 2025 "Jun 25"
        (.records ["a", "b", "c", "d"] [["t", "P", "1", "x"]])).cols = normColumns ∧
    ∀ nr ∈ (load_sheet_data (fun _ => some 5) (fun _ => none) "Berkhamsted" 2025 "Jun 25"
        (.records ["a", "b", "c", "d"] [["t", "P", "1", "x"]])).table,
      nr.dateTime.isSome = true ∧ nr.location = "Berkhamsted" ∧ nr.year = 2025 ∧
      nr.month = "Jun 25" ∧
      ∃ raw : RawRow,
        nr = stampRow "Berkhamsted" 2025 "Jun 25"
          (coerceRow (fun _ => some 5) (fun _ => none) raw) ∧
        nr.amount = ((fun _ => (none : Option ℚ)) (raw.getD 3 "")).getD 0) :=
  ⟨by decide,
   nonempty_table_invariant (fun _ => some 5) (fun _ => none) "Berkhamsted" 2025
     "Jun 25" (.records ["a", "b", "c", "d"] [["t", "P", "1", "x"]]) (by decide)⟩

/-- **C5, counterexample.** The claim says every data row of the grid
yields one record in the fallback result.  It fails: the source keeps a
data row only when `len(row) >= len(clean_headers)`, so with a 4-column
header and a 3-cell data row the fallback yields no record at all — the
padding branch (`row[i] if i < len(row) else ''`) is unreachable under
that guard. -/
theorem fallback_pads_short_rows_counterexample :
    (fallbackData [["A", "B", "C", "D"], ["x", "y", "z"]]).2 = [] ∧
    ([["A", "B", "C", "D"], ["x", "y", "z"]] : List RawRow).tail.length = 1 := by
  exact ⟨rfl, rfl⟩

/-- **C5, amended.** In the raw-grid fallback, for every grid with at
least one data row, each data row *having at least as many cells as the
truncated header* is zipped against the header row truncated to the first
4 columns and yields one record in the fallback result (under that guard
no cell is ever missing, so the empty-string padding never fires); data
rows with fewer cells are dropped, so the fallback result has exactly one
record per sufficiently wide data row. -/
theorem fallback_zips_wide_rows
    (headers : RawRow) (dataRows : List RawRow) (hne : dataRows ≠ []) :
    (fallbackData (headers :: dataRows)).1 =
      firstOccurrences (cleanHeaders headers) ∧
    (fallbackData (headers :: dataRows)).2.length =
      (dataRows.filter
        (fun r => (cleanHeaders headers).length ≤ r.length)).length ∧
    ∀ r ∈ dataRows, (cleanHeaders headers).length ≤ r.length →
      (firstOccurrences (cleanHeaders headers)).map
          (dictLookup (cleanHeaders headers) r) ∈
        (fallbackData (headers :: dataRows)).2 := by
  have hie : dataRows.isEmpty = false := by
    cases dataRows with
    | nil => exact absurd rfl hne
    | cons a t => rfl
  simp only [fallbackData, hie, Bool.false_eq_true, if_false, List.length_map]
  refine ⟨trivial, trivial, ?_⟩
  intro r hr hwide
  exact List.mem_map_of_mem _ (List.mem_filter.mpr ⟨hr, by simpa using hwide⟩)

/-- Witness for the amended C5 at a concrete grid: a 6-column header with
duplicate empty headers among columns 5–6, one wide data row (kept, with
the dict built from the first 4 columns) — the result holds with the
narrow-row filter. -/
theorem fallback_zips_wide_rows_witness :
    (([["u", "v", "w", "x", "", ""]] : List RawRow) ≠ []) ∧
    ((fallbackData [["A", "B", "C", "D", "", ""], ["u", "v", "w", "x", "", ""]]).1 =
      firstOccurrences (cleanHeaders ["A", "B", "C", "D", "", ""]) ∧
    (fallbackData [["A", "B", "C", "D", "", ""], ["u", "v", "w", "x", "", ""]]).2.length =
      (([["u", "v", "w", "x", "", ""]] : List RawRow).filter
        (fun r => (cleanHeaders ["A", "B", "C", "D", "", ""]).length ≤ r.length)).length ∧
    ∀ r ∈ ([["u", "v", "w", "x", "", ""]] : List RawRow),
      (cleanHeaders ["A", "B", "C", "D", "", ""]).length ≤ r.length →
      (firstOccurrences (cleanHeaders ["A", "B", "C", "D", "", ""])).map
          (dictLookup (cleanHeaders ["A", "B", "C", "D", "", ""]) r) ∈
        (fallbackData [["A", "B", "C", "D", "", ""], ["u", "v", "w", "x", "", ""]]).2) :=
  ⟨by decide,
   fallback_zips_wide_rows ["A", "B", "C", "D", "", ""] [["u", "v", "w", "x", "", ""]]
     (by decide)⟩

/-- **C4.** For the empty table `top_product` is `"N/A"`; for every
non-empty table `top_product` is a product of the table whose summed
amount is maximal, and among products tying for the maximal summed amount
it is the lexicographically smallest name (pandas `groupby` orders keys
ascending and `idxmax` takes the first maximum). -/
theorem top_product_spec (df : List NormRow) :
    (df = [] → (calculate_revenue_metrics df).top_product = "N/A") ∧
    (df ≠ [] →
      (∃ r ∈ df, r.product = (calculate_revenue_metrics df).top_product) ∧
      (∀ r ∈ df, groupSum df r.product ≤
          groupSum df ((calculate_revenue_metrics df).top_product)) ∧
      (∀ r ∈ df, groupSum df r.product =
          groupSum df ((calculate_revenue_metrics df).top_product) →
          (calculate_revenue_metrics df).top_product ≤ r.product)) := by
  constructor
  · intro h
    subst h
    rfl
  · intro hne
    have hemp : df.isEmpty = false := by
      cases df with
      | nil => exact absurd rfl hne
      | cons a t => rfl
    have htop : (calculate_revenue_metrics df).top_product =
        idxmax (productRevenue df) := by
      simp [calculate_revenue_metrics, hemp]
    rw [htop]
    cases hseries : productRevenue df with
    | nil =>
      exfalso
      obtain ⟨r, hr⟩ : ∃ r, r ∈ df := by
        cases df with
        | nil => exact absurd rfl hne
        | cons a t => exact ⟨a, List.mem_cons_self a t⟩
      have hm := mem_productRevenue_of_row df r hr
      rw [hseries] at hm
      exact List.not_mem_nil _ hm
    | cons kv t =>
      have hpw : (kv :: t).Pairwise (fun a b => a.1 < b.1) := by
        rw [← hseries]
        exact productRevenue_pairwise df
      rw [List.pairwise_cons] at hpw
      have hidx : idxmax (kv :: t) = (idxmaxPair kv t).1 := rfl
      rw [hidx]
      have hRmem : idxmaxPair kv t ∈ productRevenue df := by
        rw [hseries]
        exact idxmaxPair_mem t kv
      have hRshape := mem_productRevenue_shape df (idxmaxPair kv t) hRmem
      refine ⟨?_, ?_, ?_⟩
      · obtain ⟨row, hrow, hprod⟩ := List.mem_map.mp hRshape.2
        exact ⟨row, hrow, hprod⟩
      · intro r hr
        have hmem := mem_productRevenue_of_row df r hr
        rw [hseries] at hmem
        have h1 := idxmaxPair_max t kv (r.product, groupSum df r.product) hmem
        rw [hRshape.1] at h1
        exact h1
      · intro r hr heq
        have hmem := mem_productRevenue_of_row df r hr
        rw [hseries] at hmem
        exact idxmaxPair_first t kv hpw.1 hpw.2
          (r.product, groupSum df r.product) hmem
          (by show groupSum df r.product = (idxmaxPair kv t).2
              rw [heq, hRshape.1])

/-- Witness for C4 at a concrete table with a revenue tie between products
`"A"` and `"B"` (both sum to 100): the maximality and lexicographic
tie-break conclusions hold there. -/
theorem top_product_spec_witness :
    (([mkRow "B" 100, mkRow "A" 100, mkRow "B" 0] : List NormRow) ≠ []) ∧
    ((∃ r ∈ ([mkRow "B" 100, mkRow "A" 100, mkRow "B" 0] : List NormRow),
        r.product =
          (calculate_revenue_metrics [mkRow "B" 100, mkRow "A" 100, mkRow "B" 0]).top_product) ∧
      (∀ r ∈ ([mkRow "B" 100, mkRow "A" 100, mkRow "B" 0] : List NormRow),
        groupSum [mkRow "B" 100, mkRow "A" 100, mkRow "B" 0] r.product ≤
          groupSum [mkRow "B" 100, mkRow "A" 100, mkRow "B" 0]
            ((calculate_revenue_metrics [mkRow "B" 100, mkRow "A" 100, mkRow "B" 0]).top_product)) ∧
      (∀ r ∈ ([mkRow "B" 100, mkRow "A" 100, mkRow "B" 0] : List NormRow),
        groupSum [mkRow "B" 100, mkRow "A" 100, mkRow "B" 0] r.product =
          groupSum [mkRow "B" 100, mkRow "A" 100, mkRow "B" 0]
            ((calculate_revenue_metrics [mkRow "B" 100, mkRow "A" 100, mkRow "B" 0]).top_product) →
          (calculate_revenue_metrics [mkRow "B" 100, mkRow "A" 100, mkRow "B" 0]).top_product ≤
            r.product)) :=
  ⟨by decide,
   (top_product_spec [mkRow "B" 100, mkRow "A" 100, mkRow "B" 0]).2 (by decide)⟩

/-- **C8, counterexample.** The claim says the breakdown holds the exact
per-group `(sum, count, mean)` and is sorted descending by summed amount.
It fails: `create_product_analysis` applies `.round(2)` *before* sorting.
With product sums `A = 10.001 < B = 10.004`, both round to `10.00`; the
output lists `A` first (group order) even though `B` has the strictly
larger summed amount, and the listed totals differ from the exact sums. -/
theorem product_breakdown_counterexample :
    create_product_analysis [mkRow "A" (10001/1000), mkRow "B" (10004/1000)] =
      [⟨"A", 10, 1, 10⟩, ⟨"B", 10, 1, 10⟩] ∧
    groupSum [mkRow "A" (10001/1000), mkRow "B" (10004/1000)] "A" <
      groupSum [mkRow "A" (10001/1000), mkRow "B" (10004/1000)] "B" ∧
    groupSum [mkRow "A" (10001/1000), mkRow "B" (10004/1000)] "A" ≠ 10 := by
  have hsA : groupSum [mkRow "A" (10001/1000), mkRow "B" (10004/1000)] "A" =
      10001/1000 := by
    norm_num [groupSum, mkRow, List.filter]
    rfl
  have hsB : groupSum [mkRow "A" (10001/1000), mkRow "B" (10004/1000)] "B" =
      10004/1000 := by
    norm_num [groupSum, mkRow, List.filter]
    rw [show decide ("A" = "B") = false from rfl]
    norm_num
  have hcA : groupCount [mkRow "A" (10001/1000), mkRow "B" (10004/1000)] "A" = 1 := by
    norm_num [groupCount, mkRow, List.filter]
    rfl
  have hcB : groupCount [mkRow "A" (10001/1000), mkRow "B" (10004/1000)] "B" = 1 := by
    norm_num [groupCount, mkRow, List.filter]
    rw [show decide ("A" = "B") = false from rfl]
    rfl
  have hmA : groupMean [mkRow "A" (10001/1000), mkRow "B" (10004/1000)] "A" =
      10001/1000 := by
    rw [groupMean, hsA, hcA]
    norm_num
  have hmB : groupMean [mkRow "A" (10001/1000), mkRow "B" (10004/1000)] "B" =
      10004/1000 := by
    rw [groupMean, hsB, hcB]
    norm_num
  have hr1 : round2 (10001/1000) = 10 := by
    norm_num [round2, roundHalfEven, round_eq]
  have hr2 : round2 (10004/1000) = 10 := by
    norm_num [round2, roundHalfEven, round_eq]
  have hkeys : productKeys [mkRow "A" (10001/1000), mkRow "B" (10004/1000)] =
      ["A", "B"] := by
    norm_num [productKeys, mkRow, List.insertionSort, List.orderedInsert,
      List.dedup, List.pwFilter]
    decide
  refine ⟨?_, ?_, ?_⟩
  · unfold create_product_analysis
    rw [if_neg (by simp), hkeys]
    simp only [List.map_cons, List.map_nil, breakdownEntry]
    rw [hsA, hsB, hmA, hmB, hcA, hcB, hr1, hr2]
    norm_num [sortDesc, insertDesc]
  · rw [hsA, hsB]
    norm_num
  · rw [hsA]
    norm_num

/-- **C8, amended.** For every non-empty table, `create_product_analysis`
groups rows by product with per-group values `(round2 sum, count,
round2 mean)` of amount — the sum and mean rounded to two decimals by
`.round(2)` — and the sequence is sorted descending by the *rounded* sum,
ties between equal rounded sums broken by product name ascending. -/
theorem product_breakdown_grouped_sorted (df : List NormRow) (hne : df ≠ []) :
    (∀ s ∈ create_product_analysis df,
      s.product ∈ df.map (fun r => r.product) ∧
      s.total = round2 (groupSum df s.product) ∧
      s.count = groupCount df s.product ∧
      s.mean = round2 (groupMean df s.product)) ∧
    (∀ r ∈ df, ∃ s ∈ create_product_analysis df, s.product = r.product) ∧
    (create_product_analysis df).Pairwise breakdownOrder := by
  have hemp : df.isEmpty = false := by
    cases df with
    | nil => exact absurd rfl hne
    | cons a t => rfl
  have hout : create_product_analysis df =
      sortDesc ((productKeys df).map (breakdownEntry df)) := by
    simp [create_product_analysis, hemp]
  rw [hout]
  refine ⟨?_, ?_, ?_⟩
  · intro s hs
    obtain ⟨p, hp, rfl⟩ := List.mem_map.mp ((sortDesc_perm _).mem_iff.mp hs)
    exact ⟨(mem_productKeys df p).mp hp, rfl, rfl, rfl⟩
  · intro r hr
    have hmem : breakdownEntry df r.product ∈
        sortDesc ((productKeys df).map (breakdownEntry df)) :=
      (sortDesc_perm _).mem_iff.mpr
        (List.mem_map_of_mem _
          ((mem_productKeys df r.product).mpr (List.mem_map_of_mem _ hr)))
    exact ⟨breakdownEntry df r.product, hmem, rfl⟩
  · apply sortDesc_pairwise
    rw [List.pairwise_map]
    exact productKeys_pairwise_lt df

/-- Witness for the amended C8 at a concrete table whose groups include a
rounded-total tie (`B` sums to 7 over two rows, `C` to 7 over one): the
grouping, rounding and ordering conclusions hold there. -/
theorem product_breakdown_grouped_sorted_witness :
    (([mkRow "B" 5, mkRow "A" 3, mkRow "C" 7, mkRow "B" 2] : List NormRow) ≠ []) ∧
    ((∀ s ∈ create_product_analysis [mkRow "B" 5, mkRow "A" 3, mkRow "C" 7, mkRow "B" 2],
      s.product ∈ ([mkRow "B" 5, mkRow "A" 3, mkRow "C" 7, mkRow "B" 2] : List NormRow).map
        (fun r => r.product) ∧
      s.total = round2 (groupSum [mkRow "B" 5, mkRow "A" 3, mkRow "C" 7, mkRow "B" 2] s.product) ∧
      s.count = groupCount [mkRow "B" 5, mkRow "A" 3, mkRow "C" 7, mkRow "B" 2] s.product ∧
      s.mean = round2 (groupMean [mkRow "B" 5, mkRow "A" 3, mkRow "C" 7, mkRow "B" 2] s.product)) ∧
    (∀ r ∈ ([mkRow "B" 5, mkRow "A" 3, mkRow "C" 7, mkRow "B" 2] : List NormRow),
      ∃ s ∈ create_product_analysis [mkRow "B" 5, mkRow "A" 3, mkRow "C" 7, mkRow "B" 2],
        s.product = r.product) ∧
    (create_product_analysis [mkRow "B" 5, mkRow "A" 3, mkRow "C" 7, mkRow "B" 2]).Pairwise
      breakdownOrder) :=
  ⟨by decide,
   product_breakdown_grouped_sorted [mkRow "B" 5, mkRow "A" 3, mkRow "C" 7, mkRow "B" 2]
     (by decide)⟩

end Franchisor
